import Mathlib

/-!
Verification of the FTP remote-file adapter (`src/snakemake/remote/FTP.py`).

The file shallowly embeds the module's data model and operations:

* the address regex `^(?P<host>[A-Za-z0-9\-\.]+)(?:\:(?P<port>[0-9]+))?(?P<path_remainder>.*)$`
  of `RemoteObject._matched_address` (line 139) and the accessor properties
  `host`, `port`, `path_remainder`, `remote_path`, `local_path`;
* the `ftpc` context manager (lines 38-70): its kwargs merge and transport
  selection, and the `@contextmanager` execution semantics of its
  `yield conn; conn.close()` body (no try/finally around the yield);
* the operations `exists`, `mtime`, `size`, `download` and the `list`
  property, each as a function of an abstract server / local filesystem,
  returning an `Except` outcome together with the list of connection and
  I/O events it performs.

Machine-level I/O is abstracted into a `Server` record (existence, mtime,
size and content of remote paths) and a `LocalFS` record (local files and
directories); everything else is translated statement by statement from the
source.
-/

/-- Python exception values that the modelled code can produce.
`nameError n` is what `raise N(...)` evaluates to when the identifier `N`
is bound nowhere in the module (the name lookup fails before the call);
`attributeError` is what `None.group(...)` raises; `ftpFileException` is
the one exception type the module imports (line 12).
`addressParseError` and `sizeUnavailable` are modelled from the spec
(section 7 error kinds); the source never constructs them.
`fileExistsError`/`fileNotFoundError` model `os.makedirs` failures. -/
inductive PyExc where
  | nameError (missingName : String)
  | attributeError
  | ftpFileException (msg : String)
  | typeError
  | addressParseError
  | sizeUnavailable
  | fileExistsError (d : String)
  | fileNotFoundError
deriving DecidableEq, Repr

deriving instance DecidableEq for Except

/-- Exception class names bound in the module's namespace (FTP.py lines
10-13 import exactly `FTPFileException` from snakemake.exceptions). -/
def moduleExceptionNames : List String := ["FTPFileException"]

/-- Evaluate `raise N(msg)` for an exception class name `N`: if the name is
bound in the module it raises that exception, otherwise the name lookup
itself fails with `NameError` (as happens for `SFTPFileException` on lines
80, 88 and 106). -/
def raiseName (n : String) (msg : String) : PyExc :=
  if moduleExceptionNames.contains n then PyExc.ftpFileException msg
  else PyExc.nameError n

/-- Characters of the regex class `[A-Za-z0-9\-\.]` (the host group). -/
def isHostChar (c : Char) : Bool :=
  c.isAlpha || c.isDigit || c = '-' || c = '.'

/-- The three capture groups of `_matched_address` (FTP.py line 139):
`host` is group `host`, `portGroup` the optional `port` digit group (the
colon sits in a non-capturing group), `path_remainder` the trailing `.*`. -/
structure AddrGroups where
  host : List Char
  portGroup : Option (List Char)
  path_remainder : List Char
deriving DecidableEq, Repr

/-- Greedy matching of `^([A-Za-z0-9\-.]+)(:([0-9]+))?(.*)$` against a
newline-free string: the host group takes the maximal run of host
characters, the optional port group a colon and the maximal run of digits,
and `.*` everything that remains.  Since `(.*)$` succeeds from any
position of a newline-free string, the regex engine never backtracks, so
greedy matching is exactly maximal munch. -/
def munch (l : List Char) : Option AddrGroups :=
  if l.takeWhile isHostChar = [] then none
  else
    match l.dropWhile isHostChar with
    | c :: r2 =>
        if c = ':' then
          if r2.takeWhile Char.isDigit = [] then
            some ⟨l.takeWhile isHostChar, none, l.dropWhile isHostChar⟩
          else
            some ⟨l.takeWhile isHostChar, some (r2.takeWhile Char.isDigit),
              r2.dropWhile Char.isDigit⟩
        else some ⟨l.takeWhile isHostChar, none, l.dropWhile isHostChar⟩
    | [] => some ⟨l.takeWhile isHostChar, none, l.dropWhile isHostChar⟩

/-- What the anchored pattern `^...(.*)$` can see of a Python string: `.`
never matches a newline and `$` matches at the end of the string or just
before one final newline, so a string with an interior newline has no
match at all, and a single trailing newline is invisible to the groups. -/
def regexTarget (l : List Char) : Option (List Char) :=
  let core := if l.getLast? = some '\n' then l.dropLast else l
  if '\n' ∈ core then none else some core

/-- `RemoteObject._matched_address` (FTP.py lines 137-139): the match of the
address regex against `self._iofile._file`, or `none` when `re.search`
returns `None`. -/
def matched_address (l : List Char) : Option AddrGroups :=
  (regexTarget l).bind munch

/-- Decimal value of a digit-character list, as Python's `int()` computes it
on a string of digits. -/
def natOfDigitChars (l : List Char) : Nat :=
  l.foldl (fun a c => 10 * a + (c.toNat - 48)) 0

/-- `RemoteObject.port` resolved from a successful match (FTP.py lines
151-156): `int` of the port group when it matched, else the default 21. -/
def portOf (g : AddrGroups) : Nat :=
  match g.portGroup with
  | some ds => natOfDigitChars ds
  | none => 21

/-- The `port` property as called on an arbitrary address string (FTP.py
lines 151-156): it reads `self._matched_address.group("port")` without
checking the match first, so on a string with no match it calls `.group`
on `None` and raises `AttributeError`. -/
def portProp (s : String) : Except PyExc Nat :=
  match matched_address s.data with
  | some g => Except.ok (portOf g)
  | none => Except.error PyExc.attributeError

/-- `RemoteObject.host` (FTP.py lines 146-149): group `host` when the
address matches, `None` (here: `none`) otherwise. -/
def hostProp (s : String) : Option (List Char) :=
  (matched_address s.data).map AddrGroups.host

/-- `RemoteObject.path_remainder` / `RemoteObject.remote_path` (FTP.py
lines 158-161 and 167-169): group `path_remainder` when the address
matches.  The operations below only read it after checking the match. -/
def remotePathStr (s : String) : String :=
  match matched_address s.data with
  | some g => String.mk g.path_remainder
  | none => ""

/-- `RemoteObject.local_path` (FTP.py lines 163-165): the raw
`self._iofile._file` string itself, i.e. the whole address. -/
def localPathOf (s : String) : String := s

theorem matched_address_simple :
    matched_address "host.com:21/a/b.txt".data =
      some ⟨"host.com".data, some "21".data, "/a/b.txt".data⟩ := by
  decide

/-! ### posixpath helpers used by the module (`os.path` on a POSIX host).
All are written over `List Char` with structural recursion so that they
reduce inside the kernel; `String` wrappers sit on top. -/

/-- `os.path.dirname` (posixpath): everything up to the last `/`, with
trailing slashes stripped unless the head consists only of slashes. -/
def dirnameL (p : List Char) : List Char :=
  let r := p.reverse
  let headRev := r.dropWhile (fun c => c ≠ '/')
  if headRev = [] then []
  else if headRev.all (fun c => c = '/') then headRev.reverse
  else (headRev.dropWhile (fun c => c = '/')).reverse

def dirnameFn (p : String) : String := String.mk (dirnameL p.data)

/-- `os.path.join` (posixpath) for two components. -/
def pjoinL (a b : List Char) : List Char :=
  match b with
  | '/' :: _ => b
  | _ =>
      match a.getLast? with
      | none => b
      | some '/' => a ++ b
      | some _ => a ++ '/' :: b

def pjoin (a b : String) : String := String.mk (pjoinL a.data b.data)

/-- Python `str.split("/")`: the pieces between the slashes, keeping empty
pieces (so splitting the empty string gives one empty piece). -/
def splitSlash : List Char → List (List Char)
  | [] => [[]]
  | c :: rest =>
      match splitSlash rest with
      | [] => [[c]]
      | h :: t => if c = '/' then [] :: h :: t else (c :: h) :: t

/-- Python `"/".join(...)` over character lists. -/
def joinSlash : List (List Char) → List Char
  | [] => []
  | [x] => x
  | x :: y :: t => x ++ '/' :: joinSlash (y :: t)

/-- The `initial_slashes` computation of posixpath.normpath: 1 for a
leading slash, except exactly two leading slashes (not three) keep 2. -/
def initialSlashes : List Char → Nat
  | '/' :: '/' :: '/' :: _ => 1
  | '/' :: '/' :: _ => 2
  | '/' :: _ => 1
  | _ => 0

/-- `os.path.normpath` (posixpath): collapse repeated separators and
`.`/`..` components, preserving the special double-slash root. -/
def normpathL (p : List Char) : List Char :=
  if p = [] then ['.']
  else
    let ini := initialSlashes p
    let comps := splitSlash p
    let newComps := comps.foldl
      (fun (acc : List (List Char)) comp =>
        if comp = [] ∨ comp = ['.'] then acc
        else if comp ≠ ['.', '.'] ∨ (ini = 0 ∧ acc = []) ∨
            (acc ≠ [] ∧ acc.getLast? = some ['.', '.']) then acc ++ [comp]
        else if acc ≠ [] then acc.dropLast
        else acc) []
    let res := List.replicate ini '/' ++ joinSlash newComps
    if res = [] then ['.'] else res

def normpath (p : String) : String := String.mk (normpathL p.data)

theorem normpath_example : normpath "data/{sample}.txt" = "data/{sample}.txt" := by
  decide

theorem dirnameFn_example : dirnameFn "data/" = "data" := by decide

/-! ### The `ftpc` context manager and the FTP operations -/

/-- Connection and I/O events an operation performs, in order. -/
inductive Event where
  | connOpen
  | connClose
  | queryExists (p : String)
  | syncTimes
  | getMtime (p : String)
  | getSize (p : String)
  | transfer (src tgt : String)
  | mkdirs (d : String)
deriving DecidableEq, Repr

/-- Execution of `with self.ftpc() as ftpc: <body>` (FTP.py lines 38-70).
`ftpc` is a `@contextmanager` generator whose code before the yield opens
the connection and whose single statement after the yield is
`conn.close()`; nothing wraps the yield in try/finally.  Python's
`@contextmanager` protocol therefore behaves as follows:

* `__enter__` runs the generator up to the yield: the connection opens;
* if the body completes normally, `__exit__` resumes the generator, which
  executes `conn.close()` (line 70) and finishes;
* if the body raises, `__exit__` throws the exception into the generator
  at the yield point; with no try/finally around the yield the exception
  propagates out of the generator immediately, and `conn.close()` on
  line 70 is never executed.

The extra component `σ` threads whatever state the body updates (the
local filesystem for `download`, nothing for the pure queries). -/
def withFtpc {α σ : Type} (body : Except PyExc α × σ × List Event) :
    Except PyExc α × σ × List Event :=
  match body with
  | (Except.ok a, st, evs) => (Except.ok a, st, Event.connOpen :: (evs ++ [Event.connClose]))
  | (Except.error e, st, evs) => (Except.error e, st, Event.connOpen :: evs)

/-- The remote FTP server, abstracted: which paths exist
(`ftpc.path.exists`), their modification times (`ftpc.path.getmtime`),
sizes (`ftpc.path.getsize`) and contents (what `ftpc.download`
transfers). -/
structure Server where
  pathExists : String → Bool
  mtimeOf : String → Nat
  sizeOf : String → Nat
  content : String → List Nat

/-- The local filesystem, abstracted: file contents by path and the set of
existing directories. -/
structure LocalFS where
  files : String → Option (List Nat)
  dirs : List String

/-- `os.path.exists` on the local filesystem. -/
def localExists (lfs : LocalFS) (p : String) : Bool :=
  (lfs.files p).isSome || lfs.dirs.contains p

/-- `os.makedirs(d)` (no `exist_ok`): fails with `FileExistsError` when the
target already exists and with `FileNotFoundError` on the empty name;
otherwise it records the directory as existing.  (Real makedirs also
creates missing ancestors; only the immediate parent is ever observed by
this module, so only the named directory is recorded.) -/
def osMakedirs (d : String) (lfs : LocalFS) : Except PyExc LocalFS :=
  if d = "" then Except.error PyExc.fileNotFoundError
  else if localExists lfs d then Except.error (PyExc.fileExistsError d)
  else Except.ok { lfs with dirs := d :: lfs.dirs }

/-- Write the transferred bytes to a local path (`ftpc.download`'s effect
on the local filesystem). -/
def writeFile (lfs : LocalFS) (p : String) (bs : List Nat) : LocalFS :=
  { lfs with files := fun q => if q = p then some bs else lfs.files q }

/-- `RemoteObject.exists` (FTP.py lines 72-80).  When the address matches,
the body of the `with` block returns `ftpc.path.exists(self.remote_path)`
on line 75 — the `if`/`isfile` check on lines 76-77 and the `return False`
on line 78 stand after that `return` and are unreachable.  When the
address does not match, line 80 raises via the undefined name
`SFTPFileException`, before any connection is attempted. -/
def existsOp (srv : Server) (s : String) : Except PyExc Bool × List Event :=
  match matched_address s.data with
  | some _ =>
      let rp := remotePathStr s
      let r := withFtpc (σ := Unit)
        (Except.ok (srv.pathExists rp), (), [Event.queryExists rp])
      (r.1, r.2.2)
  | none =>
      (Except.error (raiseName "SFTPFileException"
        "The file cannot be parsed as an FTP path"), [])

/-- `RemoteObject.mtime` (FTP.py lines 82-88): if `self.exists()` then,
under a fresh connection, `ftpc.synchronize_times()` and then
`ftpc.path.getmtime(self.remote_path)`; otherwise line 88 raises via the
undefined name `SFTPFileException`. -/
def mtimeOp (srv : Server) (s : String) : Except PyExc Nat × List Event :=
  match existsOp srv s with
  | (Except.ok true, e1) =>
      let rp := remotePathStr s
      let r := withFtpc (σ := Unit)
        (Except.ok (srv.mtimeOf rp), (), [Event.syncTimes, Event.getMtime rp])
      (r.1, e1 ++ r.2.2)
  | (Except.ok false, e1) =>
      (Except.error (raiseName "SFTPFileException"
        "The file does not seem to exist remotely"), e1)
  | (Except.error e, e1) => (Except.error e, e1)

/-- Modelled from the spec: `self._iofile.size_local` lives in
`snakemake.io`, which is not among the repository's source files.  Per the
spec (sections 4.3 and 7) it is the size of the previously-downloaded
local copy, and `SizeUnavailable` when no local copy exists. -/
def size_local (lfs : LocalFS) (p : String) : Except PyExc Nat :=
  match lfs.files p with
  | some bs => Except.ok bs.length
  | none => Except.error PyExc.sizeUnavailable

/-- `RemoteObject.size` (FTP.py lines 90-95): if `self.exists()` then, under
a fresh connection, `ftpc.path.getsize(self.remote_path)`; otherwise the
size of the local copy, `self._iofile.size_local`. -/
def sizeOp (srv : Server) (lfs : LocalFS) (s : String) :
    Except PyExc Nat × List Event :=
  match existsOp srv s with
  | (Except.ok true, e1) =>
      let rp := remotePathStr s
      let r := withFtpc (σ := Unit)
        (Except.ok (srv.sizeOf rp), (), [Event.getSize rp])
      (r.1, e1 ++ r.2.2)
  | (Except.ok false, e1) => (size_local lfs (localPathOf s), e1)
  | (Except.error e, e1) => (Except.error e, e1)

/-- `RemoteObject.download` (FTP.py lines 97-106).  The whole body runs
inside `with self.ftpc() as ftpc:`; on an address with no match, entering
`ftpc` already fails, because line 52 reads `self.port` and the `port`
property calls `.group` on `None` (AttributeError) before any connection
is made.  Otherwise: if `self.exists()` (a second, inner connection), the
destination parent directory is created when absent and `make_dest_dirs`
is set, times are synchronized and the remote file is transferred to
`self.local_path`; if the remote file does not exist, line 106 raises via
the undefined name `SFTPFileException` — inside the `with` block. -/
def downloadOp (srv : Server) (lfs : LocalFS) (s : String)
    (makeDestDirs : Bool) : Except PyExc Unit × LocalFS × List Event :=
  match matched_address s.data with
  | none => (Except.error PyExc.attributeError, lfs, [])
  | some _ =>
      let body : Except PyExc Unit × LocalFS × List Event :=
        match existsOp srv s with
        | (Except.ok true, e1) =>
            let lp := localPathOf s
            let rp := remotePathStr s
            let dn := dirnameFn lp
            if !localExists lfs dn && makeDestDirs then
              match osMakedirs dn lfs with
              | Except.ok lfs2 =>
                  (Except.ok (), writeFile lfs2 lp (srv.content rp),
                    e1 ++ [Event.mkdirs dn, Event.syncTimes, Event.transfer rp lp])
              | Except.error e => (Except.error e, lfs, e1 ++ [Event.mkdirs dn])
            else
              (Except.ok (), writeFile lfs lp (srv.content rp),
                e1 ++ [Event.syncTimes, Event.transfer rp lp])
        | (Except.ok false, e1) =>
            (Except.error (raiseName "SFTPFileException"
              "The file does not seem to exist remotely"), lfs, e1)
        | (Except.error e, e1) => (Except.error e, lfs, e1)
      withFtpc body

/-! ### The kwargs merge and transport selection inside `ftpc`
(FTP.py lines 40-66) -/

/-- A Python value as it appears among the connection kwargs. -/
inductive PyVal where
  | vStr (s : String)
  | vNat (n : Nat)
  | vBool (b : Bool)
  | vNone
deriving DecidableEq, Repr

/-- Python truthiness of a kwargs value. -/
def PyVal.truthy : PyVal → Bool
  | PyVal.vStr s => !(s = "")
  | PyVal.vNat n => !(n = 0)
  | PyVal.vBool b => b
  | PyVal.vNone => false

/-- A Python dict, modelled as an assignment list: the newest binding
stands first and shadows older ones. -/
def Kwargs := List (String × PyVal)

/-- `d[k]` as an optional lookup: the newest binding of `k`. -/
def dictGet (d : Kwargs) (k : String) : Option PyVal :=
  match d with
  | [] => none
  | (k2, v) :: rest => if k2 = k then some v else dictGet rest k

/-- `d[k] = v`. -/
def dictSet (d : Kwargs) (k : String) (v : PyVal) : Kwargs := (k, v) :: d

/-- `for k, v in items: d[k] = v`. -/
def dictUpdate (d : Kwargs) (items : List (String × PyVal)) : Kwargs :=
  items.foldl (fun acc kv => dictSet acc kv.1 kv.2) d

/-- The base `kwargs_to_use` dict built on FTP.py lines 48-53 from the
address-derived host and port, anonymous credentials and the
`encrypt_data_channel` constructor flag. -/
def baseKwargs (selfHost selfPort selfEncrypt : PyVal) : Kwargs :=
  dictSet (dictSet (dictSet (dictSet (dictSet [] "host" selfHost)
    "username" PyVal.vNone) "password" PyVal.vNone) "port" selfPort)
    "encrypt_data_channel" selfEncrypt

/-- The merged `kwargs_to_use` (FTP.py lines 48-58): the base dict,
overlaid with `self.provider.kwargs`, overlaid with `self.kwargs`. -/
def mergedKwargs (selfHost selfPort selfEncrypt : PyVal)
    (provKw fileKw : List (String × PyVal)) : Kwargs :=
  dictUpdate (dictUpdate (baseKwargs selfHost selfPort selfEncrypt) provKw) fileKw

/-- The transport base class chosen on FTP.py line 60. -/
inductive FtpClass where
  | plainFTP
  | ftpTLS
deriving DecidableEq, Repr

/-- `ftplib.FTP_TLS if kwargs_to_use["encrypt_data_channel"] else
ftplib.FTP` (FTP.py line 60); the key is always present because the base
dict sets it on line 53. -/
def ftpBaseClass (kw : Kwargs) : FtpClass :=
  if ((dictGet kw "encrypt_data_channel").getD PyVal.vNone).truthy
  then FtpClass.ftpTLS else FtpClass.plainFTP

/-- The last binding a `for k, v in items: d[k] = v` loop writes for `k`:
the rightmost occurrence of the key in the item list. -/
def lastBinding (items : List (String × PyVal)) (k : String) : Option PyVal :=
  match items with
  | [] => none
  | (k2, v) :: rest =>
      match lastBinding rest k with
      | some w => some w
      | none => if k2 = k then some v else none

/-- First-of-two option choice (per-file over per-provider over default). -/
def optFirst (a b : Option PyVal) : Option PyVal :=
  match a with
  | some v => some v
  | none => b

/-! ### The `list` property (FTP.py lines 112-129) -/

mutual
/-- A directory on the FTP server: named subdirectories and file names. -/
inductive FSTree where
  | node (dirs : FSDirs) (files : List String)
/-- The subdirectory list of a directory. -/
inductive FSDirs where
  | nil
  | cons (nm : String) (sub : FSTree) (rest : FSDirs)
end

/-- The names of the subdirectories, in order. -/
def FSDirs.names : FSDirs → List String
  | FSDirs.nil => []
  | FSDirs.cons nm _ rest => nm :: rest.names

mutual
/-- `ftpc.walk(root)` over the tree `t` rooted at the path string `root`:
top-down, each visited directory yields `(dirpath, dirnames, filenames)`
and then its subdirectories are walked under `os.path.join(dirpath,
name)`, in order — exactly `os.walk`'s default behaviour, which
`ftputil.FTPHost.walk` mirrors. -/
def walkTree (root : String) : FSTree → List (String × List String × List String)
  | FSTree.node dirs files => (root, dirs.names, files) :: walkDirs root dirs
def walkDirs (root : String) : FSDirs → List (String × List String × List String)
  | FSDirs.nil => []
  | FSDirs.cons nm sub rest =>
      walkTree (pjoin root nm) sub ++ walkDirs root rest
end

/-- `os.path.join(dirpath, f) if dirpath != "." else f` (FTP.py line 124). -/
def joinEntry (dp f : String) : String :=
  if dp = "." then f else pjoin dp f

/-- The comprehension of FTP.py lines 124-126: for every walked frame in
order, the files first and then the directory names, each joined to the
frame's dirpath. -/
def collectFrames : List (String × List String × List String) → List String
  | [] => []
  | (dp, dns, fns) :: rest => (fns ++ dns).map (joinEntry dp) ++ collectFrames rest

/-- Line 127: strip one leading `/` from a path, when present. -/
def stripLeadSlash (s : String) : String :=
  match s.data with
  | '/' :: rest => String.mk rest
  | _ => s

/-- `re.search("{[^{]", pattern)`: the start index of the leftmost `{`
followed by a character other than `{`, FTP.py line 117. -/
def firstWildcard : List Char → Option Nat
  | [] => none
  | c :: rest =>
      if c = '{' then
        match rest with
        | c2 :: _ =>
            if c2 = '{' then (firstWildcard rest).map (fun i => i + 1)
            else some 0
        | [] => none
      else (firstWildcard rest).map (fun i => i + 1)

/-- The base directory the `list` property walks from (FTP.py lines
116-121): normalize the remote path, cut it at the first wildcard when
one occurs, take `os.path.dirname`, and fall back to `"."` when that is
empty. -/
def listBaseDir (remotePath : String) : String :=
  let pattern := normpath remotePath
  let d := match firstWildcard pattern.data with
    | some i => dirnameFn (String.mk (pattern.data.take i))
    | none => dirnameFn pattern
  if d = "" then "." else d

/-- The `list` property (FTP.py lines 112-129): on an address with no
match, `os.path.normpath(None)` on line 116 raises `TypeError`; otherwise
walk the server subtree `fs` rooted at the computed base directory under
a connection, collect every file and directory name joined to its
dirpath, and strip one leading slash from each entry. -/
def listOp (fs : FSTree) (s : String) : Except PyExc (List String) :=
  match matched_address s.data with
  | none => Except.error PyExc.typeError
  | some _ =>
      let base := listBaseDir (remotePathStr s)
      Except.ok ((collectFrames (walkTree base fs)).map stripLeadSlash)

mutual
/-- Specification-side recursive collection (spec section 4.3, `list()`):
every file and every directory path encountered under `root` — for each
directory its files then its subdirectory names, then recursively the
entries of each subdirectory. -/
def specEntriesTree (root : String) : FSTree → List String
  | FSTree.node dirs files =>
      (files ++ dirs.names).map (joinEntry root) ++ specEntriesDirs root dirs
def specEntriesDirs (root : String) : FSDirs → List String
  | FSDirs.nil => []
  | FSDirs.cons nm sub rest =>
      specEntriesTree (pjoin root nm) sub ++ specEntriesDirs root rest
end

/-! ### Supporting lemmas: maximal munch over appended lists -/

theorem takeWhile_dropWhile_append (p : Char → Bool) (a b : List Char)
    (ha : ∀ c ∈ a, p c = true) (hb : ∀ c, b.head? = some c → p c = false) :
    (a ++ b).takeWhile p = a ∧ (a ++ b).dropWhile p = b := by
  induction a with
  | nil =>
      cases b with
      | nil => simp [List.takeWhile, List.dropWhile]
      | cons x xs =>
          have hx := hb x rfl
          simp [List.takeWhile, List.dropWhile, hx]
  | cons x xs ih =>
      have hx := ha x (by simp)
      have hrest := ih (fun c hc => ha c (by simp [hc]))
      simp [List.takeWhile, List.dropWhile, hx, hrest.1, hrest.2]

theorem head_dropWhile_false (p : Char → Bool) (l : List Char) :
    ∀ c, (l.dropWhile p).head? = some c → p c = false := by
  induction l with
  | nil => simp [List.dropWhile]
  | cons x xs ih =>
      intro c hc
      by_cases hx : p x
      · exact ih c (by simpa [List.dropWhile, hx] using hc)
      · have hcx : x = c := by
          simpa [List.dropWhile, hx] using hc
        simpa [← hcx] using hx

theorem mem_takeWhile_sat (p : Char → Bool) (l : List Char) :
    ∀ c ∈ l.takeWhile p, p c = true := by
  induction l with
  | nil => simp [List.takeWhile]
  | cons x xs ih =>
      by_cases hx : p x
      · intro c hc
        rcases (by simpa [List.takeWhile, hx] using hc : c = x ∨ c ∈ xs.takeWhile p) with h | h
        · simpa [h] using hx
        · exact ih c h
      · simp [List.takeWhile, hx]

/-! ### Decimal serialization of the resolved port -/

/-- The decimal digit characters of `n`, most significant first (the
digits of `str(n)` for a natural number). -/
def natDigitChars (n : Nat) : List Char :=
  ((Nat.digits 10 n).map (fun d => Char.ofNat (48 + d))).reverse

/-- `str(n)` for a natural number: `"0"` for zero, else its digits. -/
def portSerial (n : Nat) : List Char :=
  if n = 0 then ['0'] else natDigitChars n

/-- Re-serialization of a parsed triple: `host:port` followed by the path
remainder. -/
def serializeAddr (h : List Char) (p : Nat) (r : List Char) : List Char :=
  h ++ ':' :: (portSerial p ++ r)

/-- The raw characters group 1 and the optional colon-port segment cover. -/
def portSeg (g : AddrGroups) : List Char :=
  match g.portGroup with
  | some ds => ':' :: ds
  | none => []

theorem digitChar_isDigit {d : Nat} (h : d < 10) :
    (Char.ofNat (48 + d)).isDigit = true := by
  interval_cases d <;> decide

theorem digitChar_toNat {d : Nat} (h : d < 10) :
    (Char.ofNat (48 + d)).toNat - 48 = d := by
  interval_cases d <;> decide

theorem foldl_digit_chars (D : List Nat) (hD : ∀ d ∈ D, d < 10) (acc : Nat) :
    ((D.map (fun d => Char.ofNat (48 + d))).reverse).foldl
        (fun a c => 10 * a + (c.toNat - 48)) acc
      = acc * 10 ^ D.length + Nat.ofDigits 10 D := by
  induction D generalizing acc with
  | nil => simp
  | cons d R ih =>
      have hd : d < 10 := hD d (by simp)
      have hR : ∀ x ∈ R, x < 10 := fun x hx => hD x (by simp [hx])
      calc ((List.map (fun d => Char.ofNat (48 + d)) (d :: R)).reverse).foldl
            (fun a c => 10 * a + (c.toNat - 48)) acc
          = ((R.map (fun d => Char.ofNat (48 + d))).reverse
              ++ [Char.ofNat (48 + d)]).foldl
              (fun a c => 10 * a + (c.toNat - 48)) acc := by
            simp
        _ = 10 * (acc * 10 ^ R.length + Nat.ofDigits 10 R)
              + ((Char.ofNat (48 + d)).toNat - 48) := by
            rw [List.foldl_append, ih hR]
            simp [List.foldl]
        _ = acc * 10 ^ (R.length + 1) + Nat.ofDigits 10 (d :: R) := by
            rw [digitChar_toNat hd, Nat.ofDigits_cons]
            ring
        _ = acc * 10 ^ (d :: R).length + Nat.ofDigits 10 (d :: R) := by
            simp

theorem natOfDigitChars_natDigitChars (n : Nat) :
    natOfDigitChars (natDigitChars n) = n := by
  unfold natOfDigitChars natDigitChars
  rw [foldl_digit_chars (Nat.digits 10 n)
      (fun d hd => Nat.digits_lt_base (by norm_num) hd) 0]
  simp [Nat.ofDigits_digits]

theorem natOfDigitChars_portSerial (n : Nat) :
    natOfDigitChars (portSerial n) = n := by
  by_cases h : n = 0
  · simp [portSerial, h, natOfDigitChars]
  · simp [portSerial, h, natOfDigitChars_natDigitChars]

theorem portSerial_ne_nil (n : Nat) : portSerial n ≠ [] := by
  by_cases h : n = 0
  · simp [portSerial, h]
  · simp only [portSerial, h, if_false]
    unfold natDigitChars
    simp [Nat.digits_ne_nil_iff_ne_zero, h]

theorem portSerial_all_digit (n : Nat) :
    ∀ c ∈ portSerial n, c.isDigit = true := by
  by_cases h : n = 0
  · simp [portSerial, h]
  · intro c hc
    simp only [portSerial, h, if_false] at hc
    unfold natDigitChars at hc
    rw [List.mem_reverse, List.mem_map] at hc
    obtain ⟨d, hd, rfl⟩ := hc
    exact digitChar_isDigit (Nat.digits_lt_base (by norm_num) hd)

theorem isDigit_isHostChar {c : Char} (h : c.isDigit = true) :
    isHostChar c = true := by
  simp [isHostChar, h]

/-- What a successful match determines: a nonempty host of host characters,
the decomposition of the matched text into the three groups, nonempty
all-digit port group, and a path remainder that cannot start with a digit
(the port group is maximal). -/
theorem munch_facts (l : List Char) (g : AddrGroups) (h : munch l = some g) :
    g.host ≠ [] ∧ (∀ c ∈ g.host, isHostChar c = true)
      ∧ l = g.host ++ portSeg g ++ g.path_remainder
      ∧ (∀ ds, g.portGroup = some ds → ds ≠ [] ∧ ∀ c ∈ ds, c.isDigit = true)
      ∧ (∀ c, g.path_remainder.head? = some c → c.isDigit = false) := by
  have hsplit := List.takeWhile_append_dropWhile (p := isHostChar) (l := l)
  have hmem := mem_takeWhile_sat isHostChar l
  have hdrop := head_dropWhile_false isHostChar l
  unfold munch at h
  revert h hsplit hmem hdrop
  generalize l.takeWhile isHostChar = t
  generalize l.dropWhile isHostChar = r
  intro h hsplit hmem hdrop
  by_cases h0 : t = []
  · simp [h0] at h
  · simp only [h0, if_false] at h
    rcases r with _ | ⟨c, r2⟩
    · cases h
      refine ⟨h0, hmem, ?_, by simp, by simp⟩
      simpa [portSeg] using hsplit.symm
    · by_cases hc : c = ':'
      · subst hc
        by_cases hds : r2.takeWhile Char.isDigit = []
        · simp only [if_pos rfl, hds, if_pos rfl] at h
          cases h
          refine ⟨h0, hmem, ?_, by simp, ?_⟩
          · simpa [portSeg] using hsplit.symm
          · intro c hc2
            have h3 : ':' = c := by simpa using hc2
            subst h3
            decide
        · simp only [if_pos rfl, hds, if_neg hds] at h
          cases h
          have hsplit2 := List.takeWhile_append_dropWhile
            (p := Char.isDigit) (l := r2)
          have hmem2 := mem_takeWhile_sat Char.isDigit r2
          have hdrop2 := head_dropWhile_false Char.isDigit r2
          revert hds hsplit2 hmem2 hdrop2
          generalize r2.takeWhile Char.isDigit = ds
          generalize r2.dropWhile Char.isDigit = pr
          intro hds hsplit2 hmem2 hdrop2
          refine ⟨h0, hmem, ?_, ?_, hdrop2⟩
          · rw [← hsplit, ← hsplit2]
            simp [portSeg]
          · intro ds2 hds2
            have : ds = ds2 := by simpa using hds2
            subst this
            exact ⟨hds, hmem2⟩
      · simp only [if_neg hc] at h
        cases h
        refine ⟨h0, hmem, ?_, by simp, ?_⟩
        · simpa [portSeg] using hsplit.symm
        · intro x hx
          have hxc : c = x := by simpa using hx
          subst hxc
          have hhost : isHostChar c = false := hdrop c (by simp)
          cases hdi : c.isDigit
          · rfl
          · exact absurd (isDigit_isHostChar hdi) (by simp [hhost])

/-- Re-parsing a serialized `host : digits path` string recovers exactly
those groups, provided the host is a nonempty run of host characters, the
digit group is nonempty, and the path does not begin with a digit. -/
theorem munch_serialized (h D r : List Char)
    (hh : h ≠ []) (hhc : ∀ c ∈ h, isHostChar c = true)
    (hD : D ≠ []) (hDd : ∀ c ∈ D, c.isDigit = true)
    (hr : ∀ c, r.head? = some c → c.isDigit = false) :
    munch (h ++ ':' :: (D ++ r)) = some ⟨h, some D, r⟩ := by
  have h1 := takeWhile_dropWhile_append isHostChar h (':' :: (D ++ r)) hhc
    (by intro c hc; have : ':' = c := by simpa using hc
        subst this; decide)
  have h2 := takeWhile_dropWhile_append Char.isDigit D r hDd hr
  unfold munch
  rw [h1.1, h1.2]
  simp only [hh, if_false, if_pos rfl, h2.1, h2.2, hD]
  simp [hh, hD]

theorem mem_of_getLast?_eq {l : List Char} {c : Char}
    (h : l.getLast? = some c) : c ∈ l := by
  have h1 : c ∈ l.getLast? := by simp [Option.mem_def, h]
  obtain ⟨hne, rfl⟩ := List.mem_getLast?_eq_getLast h1
  exact List.getLast_mem hne

theorem regexTarget_no_newline {l core : List Char}
    (h : regexTarget l = some core) : '\n' ∉ core := by
  unfold regexTarget at h
  by_cases h1 : l.getLast? = some '\n' <;> simp only [h1, if_true, if_false] at h
  · by_cases h2 : '\n' ∈ l.dropLast
    · simp [h2] at h
    · simp only [h2, if_false] at h
      obtain rfl := Option.some.inj h
      exact h2
  · by_cases h2 : '\n' ∈ l
    · simp [h2] at h
    · simp only [h2, if_false] at h
      obtain rfl := Option.some.inj h
      exact h2

theorem regexTarget_of_no_newline {l : List Char} (h : '\n' ∉ l) :
    regexTarget l = some l := by
  have h1 : l.getLast? ≠ some '\n' := by
    intro hl
    exact h (mem_of_getLast?_eq hl)
  unfold regexTarget
  simp [h1, h]

/-- C4: for every well-formed address string, the match yields the host as
the leading maximal group of `[A-Za-z0-9\-.]` characters, the optional
port digits and the entire remainder as path (the three groups decompose
the matched text); the resolved port is 21 exactly when the port segment
is omitted; and re-serializing `host:port` followed by the path re-parses
to the same host, resolved port and path, i.e. an equivalent address. -/
theorem C4_parse_roundtrip (l : List Char) (g : AddrGroups)
    (hm : matched_address l = some g) :
    g.host ≠ [] ∧ (∀ c ∈ g.host, isHostChar c = true)
      ∧ regexTarget l = some (g.host ++ portSeg g ++ g.path_remainder)
      ∧ (g.portGroup = none → portOf g = 21)
      ∧ matched_address (serializeAddr g.host (portOf g) g.path_remainder)
          = some ⟨g.host, some (portSerial (portOf g)), g.path_remainder⟩
      ∧ portOf ⟨g.host, some (portSerial (portOf g)), g.path_remainder⟩
          = portOf g := by
  unfold matched_address at hm
  rcases hcore : regexTarget l with _ | core
  · rw [hcore] at hm
    simp at hm
  · rw [hcore] at hm
    simp only [Option.some_bind] at hm
    obtain ⟨hh0, hhc, hdec, _, hhead⟩ := munch_facts core g hm
    have hno : '\n' ∉ core := regexTarget_no_newline hcore
    rw [hdec] at hno
    simp only [List.mem_append, not_or] at hno
    obtain ⟨⟨hnh, hnseg⟩, hnp⟩ := hno
    have hser : '\n' ∉ serializeAddr g.host (portOf g) g.path_remainder := by
      unfold serializeAddr
      simp only [List.mem_append, List.mem_cons, not_or]
      refine ⟨hnh, ?_, ?_, hnp⟩
      · decide
      · intro hmem
        simpa using portSerial_all_digit (portOf g) '\n' hmem
    refine ⟨hh0, hhc, ?_, ?_, ?_, ?_⟩
    · rw [hdec]
    · intro h
      simp [portOf, h]
    · unfold matched_address
      rw [regexTarget_of_no_newline hser]
      simp only [Option.some_bind]
      exact munch_serialized g.host (portSerial (portOf g)) g.path_remainder
        hh0 hhc (portSerial_ne_nil _) (portSerial_all_digit _) hhead
    · simp [portOf, natOfDigitChars_portSerial]

/-- Witness for C4 at the concrete address `ftp.example.com:2121/data/a.txt`. -/
theorem C4_parse_roundtrip_witness :
    matched_address "ftp.example.com:2121/data/a.txt".data =
        some ⟨"ftp.example.com".data, some "2121".data, "/data/a.txt".data⟩
      ∧ matched_address (serializeAddr "ftp.example.com".data 2121 "/data/a.txt".data)
          = some ⟨"ftp.example.com".data, some (portSerial 2121), "/data/a.txt".data⟩ := by
  have h := C4_parse_roundtrip "ftp.example.com:2121/data/a.txt".data
    ⟨"ftp.example.com".data, some "2121".data, "/data/a.txt".data⟩ (by decide)
  refine ⟨by decide, ?_⟩
  have h5 := h.2.2.2.2.1
  have hp : portOf ⟨"ftp.example.com".data, some "2121".data, "/data/a.txt".data⟩
      = 2121 := by decide
  rw [hp] at h5
  exact h5

/-! ### Lemmas on the kwargs merge -/

theorem dictGet_dictSet (d : Kwargs) (k2 k : String) (v : PyVal) :
    dictGet (dictSet d k2 v) k = if k2 = k then some v else dictGet d k := by
  rfl

theorem dictGet_dictUpdate (items : List (String × PyVal)) (d : Kwargs)
    (k : String) :
    dictGet (dictUpdate d items) k
      = optFirst (lastBinding items k) (dictGet d k) := by
  induction items generalizing d with
  | nil => rfl
  | cons kv rest ih =>
      have hstep : dictUpdate d (kv :: rest)
          = dictUpdate (dictSet d kv.1 kv.2) rest := rfl
      rw [hstep, ih]
      show optFirst (lastBinding rest k) (dictGet (dictSet d kv.1 kv.2) k)
        = optFirst (lastBinding (kv :: rest) k) (dictGet d k)
      rcases hlast : lastBinding rest k with _ | w
      · by_cases hk : kv.1 = k
        · simp [optFirst, lastBinding, hlast, dictGet_dictSet, hk]
        · simp [optFirst, lastBinding, hlast, dictGet_dictSet, hk]
      · simp [optFirst, lastBinding, hlast]

/-- The `kwargs_to_use` dict as `ftpc` builds it for an address whose match
is `g` (FTP.py lines 48-58): `self.host` and `self.port` come from the
match, the credentials default to `None`, the encryption flag from the
constructor (its default is `False`, line 31), then the provider kwargs
and the per-file kwargs are overlaid in that order. -/
def ftpcKwargs (g : AddrGroups) (encryptCtor : Bool)
    (provKw fileKw : List (String × PyVal)) : Kwargs :=
  mergedKwargs (PyVal.vStr (String.mk g.host)) (PyVal.vNat (portOf g))
    (PyVal.vBool encryptCtor) provKw fileKw

/-- C9: the merged connection configuration obeys the precedence per-file
overrides, then per-provider defaults, then the built-in base values: for
every key, the merged value is the last per-file binding when one exists,
else the last provider binding, else the base value; the base dict binds
anonymous credentials (`None`/`None`), the address-derived host and port
(21 when the address has no port segment, `False` encryption when the
constructor flag is omitted); and the transport class is FTPS exactly
when the merged `encrypt_data_channel` value is truthy. -/
theorem C9_merge_precedence (g : AddrGroups) (encryptCtor : Bool)
    (provKw fileKw : List (String × PyVal)) (k : String) :
    (dictGet (ftpcKwargs g encryptCtor provKw fileKw) k
        = optFirst (lastBinding fileKw k)
            (optFirst (lastBinding provKw k)
              (dictGet (baseKwargs (PyVal.vStr (String.mk g.host))
                (PyVal.vNat (portOf g)) (PyVal.vBool encryptCtor)) k)))
      ∧ dictGet (baseKwargs (PyVal.vStr (String.mk g.host))
            (PyVal.vNat (portOf g)) (PyVal.vBool encryptCtor)) "username"
          = some PyVal.vNone
      ∧ dictGet (baseKwargs (PyVal.vStr (String.mk g.host))
            (PyVal.vNat (portOf g)) (PyVal.vBool encryptCtor)) "password"
          = some PyVal.vNone
      ∧ dictGet (baseKwargs (PyVal.vStr (String.mk g.host))
            (PyVal.vNat (portOf g)) (PyVal.vBool encryptCtor)) "port"
          = some (PyVal.vNat (portOf g))
      ∧ (g.portGroup = none →
          dictGet (baseKwargs (PyVal.vStr (String.mk g.host))
              (PyVal.vNat (portOf g)) (PyVal.vBool encryptCtor)) "port"
            = some (PyVal.vNat 21))
      ∧ dictGet (baseKwargs (PyVal.vStr (String.mk g.host))
            (PyVal.vNat (portOf g)) (PyVal.vBool encryptCtor))
            "encrypt_data_channel"
          = some (PyVal.vBool encryptCtor)
      ∧ (ftpBaseClass (ftpcKwargs g encryptCtor provKw fileKw) = FtpClass.ftpTLS
          ↔ ((dictGet (ftpcKwargs g encryptCtor provKw fileKw)
              "encrypt_data_channel").getD PyVal.vNone).truthy = true) := by
  refine ⟨?_, by rfl, by rfl, by rfl, ?_, by rfl, ?_⟩
  · unfold ftpcKwargs mergedKwargs
    rw [dictGet_dictUpdate, dictGet_dictUpdate]
  · intro h
    simp only [portOf, h]
    rfl
  · unfold ftpBaseClass
    by_cases h : ((dictGet (ftpcKwargs g encryptCtor provKw fileKw)
        "encrypt_data_channel").getD PyVal.vNone).truthy = true <;> simp [h]

/-- Witness for C9 at a concrete configuration: a per-file `port` overrides
the provider's, the provider's `username` overrides the anonymous default,
and a truthy per-file encryption flag selects FTPS. -/
theorem C9_merge_precedence_witness :
    dictGet (ftpcKwargs ⟨"h".data, none, "/f".data⟩ false
        [("port", PyVal.vNat 2000), ("username", PyVal.vStr "u")]
        [("port", PyVal.vNat 3000),
         ("encrypt_data_channel", PyVal.vBool true)]) "port"
      = some (PyVal.vNat 3000)
    ∧ dictGet (ftpcKwargs ⟨"h".data, none, "/f".data⟩ false
        [("port", PyVal.vNat 2000), ("username", PyVal.vStr "u")]
        [("port", PyVal.vNat 3000),
         ("encrypt_data_channel", PyVal.vBool true)]) "username"
      = some (PyVal.vStr "u")
    ∧ dictGet (baseKwargs (PyVal.vStr "h")
        (PyVal.vNat (portOf ⟨"h".data, none, "/f".data⟩))
        (PyVal.vBool false)) "port" = some (PyVal.vNat 21)
    ∧ ftpBaseClass (ftpcKwargs ⟨"h".data, none, "/f".data⟩ false
        [("port", PyVal.vNat 2000), ("username", PyVal.vStr "u")]
        [("port", PyVal.vNat 3000),
         ("encrypt_data_channel", PyVal.vBool true)]) = FtpClass.ftpTLS := by
  have h1 := C9_merge_precedence ⟨"h".data, none, "/f".data⟩ false
    [("port", PyVal.vNat 2000), ("username", PyVal.vStr "u")]
    [("port", PyVal.vNat 3000), ("encrypt_data_channel", PyVal.vBool true)]
    "port"
  have h2 := C9_merge_precedence ⟨"h".data, none, "/f".data⟩ false
    [("port", PyVal.vNat 2000), ("username", PyVal.vStr "u")]
    [("port", PyVal.vNat 3000), ("encrypt_data_channel", PyVal.vBool true)]
    "username"
  refine ⟨?_, ?_, h1.2.2.2.2.1 rfl, ?_⟩
  · rw [h1.1]
    decide
  · rw [h2.1]
    decide
  · exact (h2.2.2.2.2.2.2).mpr (by decide)

/-! ### The walk collects exactly the recursive entries -/

theorem collectFrames_append (a b : List (String × List String × List String)) :
    collectFrames (a ++ b) = collectFrames a ++ collectFrames b := by
  induction a with
  | nil => rfl
  | cons fr rest ih =>
      obtain ⟨dp, dns, fns⟩ := fr
      simp [collectFrames, ih]

mutual
theorem collect_walkTree (root : String) (t : FSTree) :
    collectFrames (walkTree root t) = specEntriesTree root t := by
  cases t with
  | node dirs files =>
      rw [walkTree, specEntriesTree]
      show (files ++ dirs.names).map (joinEntry root)
          ++ collectFrames (walkDirs root dirs)
        = (files ++ dirs.names).map (joinEntry root) ++ specEntriesDirs root dirs
      rw [collect_walkDirs root dirs]
theorem collect_walkDirs (root : String) (d : FSDirs) :
    collectFrames (walkDirs root d) = specEntriesDirs root d := by
  cases d with
  | nil => rfl
  | cons nm sub rest =>
      rw [walkDirs, specEntriesDirs, collectFrames_append,
        collect_walkTree (pjoin root nm) sub, collect_walkDirs root rest]
end

/-- C8: for every remote path containing a glob-placeholder token, `list`
walks from the base directory obtained from the static prefix before the
first placeholder (the dirname of the normalized path cut at the
placeholder, `"."` when that is empty), returns every file and directory
path encountered in the recursive walk, and strips the leading path
separator from every returned entry. -/
theorem C8_list_walk (fs : FSTree) (s : String) (g : AddrGroups) (i : Nat)
    (hm : matched_address s.data = some g)
    (hw : firstWildcard (normpath (String.mk g.path_remainder)).data = some i) :
    listOp fs s = Except.ok ((specEntriesTree
        (if dirnameFn (String.mk
            ((normpath (String.mk g.path_remainder)).data.take i)) = ""
          then "."
          else dirnameFn (String.mk
            ((normpath (String.mk g.path_remainder)).data.take i)))
        fs).map stripLeadSlash) := by
  unfold listOp remotePathStr listBaseDir
  rw [hm]
  simp only [hw]
  rw [collect_walkTree]

/-- Witness for C8: the spec's own example — `data/{sample}.txt` under a
server with `data/a.txt`, `data/b.txt` and subdirectory `data/sub`
containing `c.txt`, reached through address `example.com/data/{sample}.txt`
(path remainder `/data/{sample}.txt`, so the walked base is `/data` and
the leading slash is stripped from every entry). -/
theorem C8_list_walk_witness :
    listOp (FSTree.node
        (FSDirs.cons "sub" (FSTree.node FSDirs.nil ["c.txt"]) FSDirs.nil)
        ["a.txt", "b.txt"])
      "example.com/data/{sample}.txt"
      = Except.ok ["data/a.txt", "data/b.txt", "data/sub", "data/sub/c.txt"] := by
  rw [C8_list_walk (FSTree.node
        (FSDirs.cons "sub" (FSTree.node FSDirs.nil ["c.txt"]) FSDirs.nil)
        ["a.txt", "b.txt"])
      "example.com/data/{sample}.txt"
      ⟨"example.com".data, none, "/data/{sample}.txt".data⟩ 6
      (by decide) (by decide)]
  congr 1

/-! ### Behaviour of the operations, by case on the address and the server -/

theorem existsOp_matched (srv : Server) (s : String) (g : AddrGroups)
    (hm : matched_address s.data = some g) :
    existsOp srv s = (Except.ok (srv.pathExists (remotePathStr s)),
      [Event.connOpen, Event.queryExists (remotePathStr s),
       Event.connClose]) := by
  unfold existsOp
  rw [hm]
  rfl

theorem existsOp_unmatched (srv : Server) (s : String)
    (hm : matched_address s.data = none) :
    existsOp srv s
      = (Except.error (PyExc.nameError "SFTPFileException"), []) := by
  unfold existsOp
  rw [hm]
  rfl

theorem mtimeOp_missing (srv : Server) (s : String) (g : AddrGroups)
    (hm : matched_address s.data = some g)
    (hex : srv.pathExists (remotePathStr s) = false) :
    mtimeOp srv s = (Except.error (PyExc.nameError "SFTPFileException"),
      [Event.connOpen, Event.queryExists (remotePathStr s),
       Event.connClose]) := by
  unfold mtimeOp
  rw [existsOp_matched srv s g hm, hex]
  rfl

theorem mtimeOp_exists (srv : Server) (s : String) (g : AddrGroups)
    (hm : matched_address s.data = some g)
    (hex : srv.pathExists (remotePathStr s) = true) :
    mtimeOp srv s = (Except.ok (srv.mtimeOf (remotePathStr s)),
      [Event.connOpen, Event.queryExists (remotePathStr s), Event.connClose,
       Event.connOpen, Event.syncTimes, Event.getMtime (remotePathStr s),
       Event.connClose]) := by
  unfold mtimeOp
  rw [existsOp_matched srv s g hm, hex]
  rfl

theorem downloadOp_missing (srv : Server) (lfs : LocalFS) (s : String)
    (g : AddrGroups) (mk : Bool)
    (hm : matched_address s.data = some g)
    (hex : srv.pathExists (remotePathStr s) = false) :
    downloadOp srv lfs s mk
      = (Except.error (PyExc.nameError "SFTPFileException"), lfs,
         [Event.connOpen, Event.connOpen,
          Event.queryExists (remotePathStr s), Event.connClose]) := by
  unfold downloadOp
  rw [hm, existsOp_matched srv s g hm, hex]
  rfl

/-- A server on which no remote path exists. -/
def srvEmpty : Server :=
  ⟨fun _ => false, fun _ => 0, fun _ => 0, fun _ => []⟩

/-- A server on which every path exists, with fixed mtime, size and
two-byte content. -/
def srvOne : Server :=
  ⟨fun _ => true, fun _ => 1700000000, fun _ => 42, fun _ => [104, 105]⟩

/-- An empty local filesystem. -/
def lfs0 : LocalFS := ⟨fun _ => none, []⟩

/-- C1: the `ftpc` scope closes the connection on normal completion of the
wrapped body but not when the body raises — with no try/finally around the
yield, `conn.close()` is skipped on the exceptional path.  Concretely, a
`download` on a missing remote file raises inside the `with` block: its
trace opens two connections (the outer `ftpc` and the one inside
`exists()`) but closes only one. -/
theorem C1_connection_leak :
    (withFtpc (σ := Unit) (Except.ok 0, (), [])).2.2
        = [Event.connOpen, Event.connClose]
      ∧ (withFtpc (σ := Unit)
          ((Except.error (PyExc.ftpFileException "boom") : Except PyExc Nat),
           (), [])).2.2
        = [Event.connOpen]
      ∧ (downloadOp srvEmpty lfs0 "host.com/f" true).2.2
        = [Event.connOpen, Event.connOpen, Event.queryExists "/f",
           Event.connClose]
      ∧ (downloadOp srvEmpty lfs0 "host.com/f" true).2.2.count Event.connOpen = 2
      ∧ (downloadOp srvEmpty lfs0 "host.com/f" true).2.2.count Event.connClose
        = 1 := by
  decide

/-- C2 counterexample: on the unparsable address `""` the claim says
`exists()` returns `false` without I/O; the code instead raises (a
`NameError`, since `SFTPFileException` is undefined).  No connection is
opened, but the result is an error, not `Except.ok false`. -/
theorem C2_exists_counterexample :
    (existsOp srvEmpty "").1 = Except.error (PyExc.nameError "SFTPFileException")
      ∧ (existsOp srvEmpty "").1 ≠ Except.ok false
      ∧ (existsOp srvEmpty "").2 = [] := by
  decide

/-- C2 amended: on a well-formed address `exists()` never raises and
returns the result of the single remote existence query of line 75 (the
second check on lines 76-78 is dead code); on an address that fails to
parse it raises — a `NameError` from the undefined `SFTPFileException` —
without opening any connection, rather than returning `false`. -/
theorem C2_exists_behaviour (srv : Server) (s : String) :
    (∀ g, matched_address s.data = some g →
        existsOp srv s = (Except.ok (srv.pathExists (remotePathStr s)),
          [Event.connOpen, Event.queryExists (remotePathStr s),
           Event.connClose]))
      ∧ (matched_address s.data = none →
        existsOp srv s
          = (Except.error (PyExc.nameError "SFTPFileException"), [])) :=
  ⟨fun g hg => existsOp_matched srv s g hg,
   fun h => existsOp_unmatched srv s h⟩

/-- Witness for C2's amended statement at `host.com/x` (one query, one
balanced connection) and at the unparsable `""` (error, no events). -/
theorem C2_exists_behaviour_witness :
    existsOp srvEmpty "host.com/x"
        = (Except.ok false,
           [Event.connOpen, Event.queryExists "/x", Event.connClose])
      ∧ existsOp srvEmpty ""
        = (Except.error (PyExc.nameError "SFTPFileException"), []) := by
  constructor
  · have h := (C2_exists_behaviour srvEmpty "host.com/x").1
      ⟨"host.com".data, none, "/x".data⟩ (by decide)
    rw [h]
    decide
  · exact (C2_exists_behaviour srvEmpty "").2 (by decide)

/-- C3 counterexample: on the malformed address `/abs/path` the match is
`None` — parsing raises nothing, typed or otherwise; the `port` accessor
then fails with a generic `AttributeError` and `exists()` with a
`NameError`, neither of which is the spec's typed `AddressParseError`. -/
theorem C3_parse_counterexample :
    matched_address "/abs/path".data = none
      ∧ portProp "/abs/path" = Except.error PyExc.attributeError
      ∧ portProp "/abs/path" ≠ Except.error PyExc.addressParseError
      ∧ (existsOp srvEmpty "/abs/path").1 ≠ Except.error PyExc.addressParseError
      ∧ (existsOp srvEmpty "/abs/path").2 = [] := by
  decide

/-- C3 amended: for every malformed address string the match is `None`
(parsing itself raises nothing); reading the `port` property then raises a
generic `AttributeError`, `exists()` raises a `NameError` via the
undefined `SFTPFileException`, and no connection attempt occurs. -/
theorem C3_parse_failure (s : String) (srv : Server)
    (hm : matched_address s.data = none) :
    portProp s = Except.error PyExc.attributeError
      ∧ existsOp srv s
        = (Except.error (PyExc.nameError "SFTPFileException"), []) := by
  constructor
  · unfold portProp
    rw [hm]
  · exact existsOp_unmatched srv s hm

/-- Witness for C3's amended statement at the malformed address `":80/x"`
(no leading host, so the anchored match fails). -/
theorem C3_parse_failure_witness :
    portProp ":80/x" = Except.error PyExc.attributeError
      ∧ existsOp srvEmpty ":80/x"
        = (Except.error (PyExc.nameError "SFTPFileException"), []) :=
  C3_parse_failure ":80/x" srvEmpty (by decide)

/-- C5 evaluated: on a well-formed address whose remote path is missing,
`mtime()` raises a `NameError` (the undefined `SFTPFileException`), not
the module's typed FTP file exception; on an existing path it
synchronizes times before reading the modification time (the sync event
precedes the read in the trace). -/
theorem C5_mtime_eval :
    mtimeOp srvEmpty "host.com/f"
        = (Except.error (PyExc.nameError "SFTPFileException"),
           [Event.connOpen, Event.queryExists "/f", Event.connClose])
      ∧ mtimeOp srvOne "host.com/f"
        = (Except.ok 1700000000,
           [Event.connOpen, Event.queryExists "/f", Event.connClose,
            Event.connOpen, Event.syncTimes, Event.getMtime "/f",
            Event.connClose]) := by
  decide

/-- C6: for every handle on a well-formed address, `size()` returns the
remote size when the remote file exists; otherwise it falls back to the
size of the previously-downloaded local copy (`self._iofile.size_local`,
modelled from the spec), so a 1024-byte local copy yields 1024, and only
when neither a remote file nor a local copy exists does it fail with
`SizeUnavailable`. -/
theorem C6_size_fallback (srv : Server) (lfs : LocalFS) (s : String)
    (g : AddrGroups) (hm : matched_address s.data = some g) :
    (srv.pathExists (remotePathStr s) = true →
        (sizeOp srv lfs s).1 = Except.ok (srv.sizeOf (remotePathStr s)))
      ∧ (srv.pathExists (remotePathStr s) = false →
        (sizeOp srv lfs s).1 = size_local lfs (localPathOf s))
      ∧ (srv.pathExists (remotePathStr s) = false → ∀ bs,
        lfs.files (localPathOf s) = some bs →
        (sizeOp srv lfs s).1 = Except.ok bs.length)
      ∧ (srv.pathExists (remotePathStr s) = false →
        lfs.files (localPathOf s) = none →
        (sizeOp srv lfs s).1 = Except.error PyExc.sizeUnavailable) := by
  have hex := existsOp_matched srv s g hm
  refine ⟨?_, ?_, ?_, ?_⟩
  · intro h
    unfold sizeOp
    rw [hex, h]
    rfl
  · intro h
    unfold sizeOp
    rw [hex, h]
  · intro h bs hb
    unfold sizeOp
    rw [hex, h]
    show size_local lfs (localPathOf s) = Except.ok bs.length
    unfold size_local
    rw [hb]
  · intro h hb
    unfold sizeOp
    rw [hex, h]
    show size_local lfs (localPathOf s) = Except.error PyExc.sizeUnavailable
    unfold size_local
    rw [hb]

/-- A local filesystem holding a previously-downloaded 1024-byte copy at
the handle's local path. -/
def lfs1024 : LocalFS :=
  ⟨fun q => if q = "host.com/f" then some (List.replicate 1024 0) else none, []⟩

/-- Witness for C6: with the remote file missing, a 1024-byte local copy
yields size 1024; with no local copy either, `SizeUnavailable`; with the
remote file present, the remote size 42. -/
theorem C6_size_fallback_witness :
    (sizeOp srvEmpty lfs1024 "host.com/f").1 = Except.ok 1024
      ∧ (sizeOp srvEmpty lfs0 "host.com/f").1
        = Except.error PyExc.sizeUnavailable
      ∧ (sizeOp srvOne lfs0 "host.com/f").1 = Except.ok 42 := by
  have h1 := C6_size_fallback srvEmpty lfs1024 "host.com/f"
    ⟨"host.com".data, none, "/f".data⟩ (by decide)
  have h2 := C6_size_fallback srvEmpty lfs0 "host.com/f"
    ⟨"host.com".data, none, "/f".data⟩ (by decide)
  have h3 := C6_size_fallback srvOne lfs0 "host.com/f"
    ⟨"host.com".data, none, "/f".data⟩ (by decide)
  refine ⟨?_, ?_, ?_⟩
  · have hfile : lfs1024.files (localPathOf "host.com/f")
        = some (List.replicate 1024 0) := by
      show (if "host.com/f" = "host.com/f"
        then some (List.replicate 1024 0) else none) = _
      rw [if_pos rfl]
    have := h1.2.2.1 (by decide) (List.replicate 1024 0) hfile
    rw [this, List.length_replicate]
  · exact h2.2.2.2 (by decide) rfl
  · have := h3.1 (by decide)
    rw [this]
    decide

/-- C7 evaluated: on a well-formed address whose remote file is missing,
`download()` raises a `NameError` (the undefined `SFTPFileException`)
rather than the module's typed FTP file exception.  On an existing remote
file the rest of the claim holds: the absent parent directory is created
on the first call, the bytes land at the local path, and a second call
against the unchanged remote file succeeds without re-running `makedirs`
(the directory already exists) and leaves the same local bytes. -/
theorem C7_download_eval :
    (downloadOp srvEmpty lfs0 "host.com/d/f" true).1
        = Except.error (PyExc.nameError "SFTPFileException")
      ∧ (downloadOp srvOne lfs0 "host.com/d/f" true).1 = Except.ok ()
      ∧ (downloadOp srvOne lfs0 "host.com/d/f" true).2.1.files "host.com/d/f"
        = some [104, 105]
      ∧ localExists (downloadOp srvOne lfs0 "host.com/d/f" true).2.1
          "host.com/d" = true
      ∧ (downloadOp srvOne lfs0 "host.com/d/f" true).2.2
        = [Event.connOpen, Event.connOpen, Event.queryExists "/d/f",
           Event.connClose, Event.mkdirs "host.com/d", Event.syncTimes,
           Event.transfer "/d/f" "host.com/d/f", Event.connClose]
      ∧ (downloadOp srvOne (downloadOp srvOne lfs0 "host.com/d/f" true).2.1
          "host.com/d/f" true).1 = Except.ok ()
      ∧ (downloadOp srvOne (downloadOp srvOne lfs0 "host.com/d/f" true).2.1
          "host.com/d/f" true).2.1.files "host.com/d/f" = some [104, 105]
      ∧ (downloadOp srvOne (downloadOp srvOne lfs0 "host.com/d/f" true).2.1
          "host.com/d/f" true).2.2
        = [Event.connOpen, Event.connOpen, Event.queryExists "/d/f",
           Event.connClose, Event.syncTimes,
           Event.transfer "/d/f" "host.com/d/f", Event.connClose] := by
  decide

/-- C10: every raise statement on the error paths of `exists()` (line 80),
`mtime()` (line 88) and `download()` (line 106) references
`SFTPFileException`, a name absent from the module's imports (which bind
only `FTPFileException`), so each branch, when reached, produces a
`NameError` for that name instead of the module's FTP file exception. -/
theorem C10_undefined_exception_name :
    (moduleExceptionNames.contains "SFTPFileException" = false
        ∧ moduleExceptionNames.contains "FTPFileException" = true)
      ∧ (∀ (srv : Server) (s : String), matched_address s.data = none →
          (existsOp srv s).1
            = Except.error (PyExc.nameError "SFTPFileException"))
      ∧ (∀ (srv : Server) (s : String) (g : AddrGroups),
          matched_address s.data = some g →
          srv.pathExists (remotePathStr s) = false →
          (mtimeOp srv s).1
              = Except.error (PyExc.nameError "SFTPFileException")
            ∧ ∀ (lfs : LocalFS) (mk : Bool),
              (downloadOp srv lfs s mk).1
                = Except.error (PyExc.nameError "SFTPFileException")) := by
  refine ⟨⟨rfl, rfl⟩, ?_, ?_⟩
  · intro srv s hm
    rw [existsOp_unmatched srv s hm]
  · intro srv s g hm hex
    constructor
    · rw [mtimeOp_missing srv s g hm hex]
    · intro lfs mk
      rw [downloadOp_missing srv lfs s g mk hm hex]

/-- Witness for C10 at the unparsable address `""` and at `host.com/f` on a
server without that file. -/
theorem C10_undefined_exception_name_witness :
    (existsOp srvEmpty "").1
        = Except.error (PyExc.nameError "SFTPFileException")
      ∧ (mtimeOp srvEmpty "host.com/f").1
        = Except.error (PyExc.nameError "SFTPFileException")
      ∧ (downloadOp srvEmpty lfs0 "host.com/f" true).1
        = Except.error (PyExc.nameError "SFTPFileException") := by
  have h := C10_undefined_exception_name
  refine ⟨h.2.1 srvEmpty "" (by decide), ?_, ?_⟩
  · exact (h.2.2 srvEmpty "host.com/f" ⟨"host.com".data, none, "/f".data⟩
      (by decide) (by decide)).1
  · exact (h.2.2 srvEmpty "host.com/f" ⟨"host.com".data, none, "/f".data⟩
      (by decide) (by decide)).2 lfs0 true

theorem writeFile_files_self (lfs : LocalFS) (p : String) (c : List Nat) :
    (writeFile lfs p c).files p = some c := by
  simp [writeFile]

theorem localExists_writeFile_of (lfs : LocalFS) (p : String) (c : List Nat)
    (d : String) (h : localExists lfs d = true) :
    localExists (writeFile lfs p c) d = true := by
  unfold localExists at h ⊢
  unfold writeFile
  simp only [Bool.or_eq_true] at h
  rcases h with h1 | h1
  · by_cases hpd : d = p
    · simp [hpd]
    · simp [hpd, h1]
  · exact Bool.or_eq_true _ _ ▸ Or.inr h1

/-- Supporting theorem for the download contract: on an unchanged remote
file, two successive `download(makeDestDirs=true)` calls both succeed,
both leave the remote content at the local path (the same bytes), and the
second call does not run `makedirs` again (the destination directory
already exists after the first call). -/
theorem download_idempotent (srv : Server) (lfs : LocalFS) (s : String)
    (g : AddrGroups) (hm : matched_address s.data = some g)
    (hex : srv.pathExists (remotePathStr s) = true)
    (hdn : dirnameFn (localPathOf s) ≠ "") :
    (downloadOp srv lfs s true).1 = Except.ok ()
      ∧ (downloadOp srv lfs s true).2.1.files (localPathOf s)
        = some (srv.content (remotePathStr s))
      ∧ localExists (downloadOp srv lfs s true).2.1
          (dirnameFn (localPathOf s)) = true
      ∧ (downloadOp srv (downloadOp srv lfs s true).2.1 s true).1
        = Except.ok ()
      ∧ (downloadOp srv (downloadOp srv lfs s true).2.1 s true).2.1.files
          (localPathOf s) = some (srv.content (remotePathStr s))
      ∧ (downloadOp srv (downloadOp srv lfs s true).2.1 s true).2.2.count
          (Event.mkdirs (dirnameFn (localPathOf s))) = 0 := by
  have hstep : ∀ lfs2 : LocalFS,
      downloadOp srv lfs2 s true =
        if localExists lfs2 (dirnameFn (localPathOf s)) then
          (Except.ok (), writeFile lfs2 (localPathOf s)
              (srv.content (remotePathStr s)),
           [Event.connOpen, Event.connOpen,
            Event.queryExists (remotePathStr s), Event.connClose,
            Event.syncTimes,
            Event.transfer (remotePathStr s) (localPathOf s),
            Event.connClose])
        else
          (Except.ok (), writeFile
              { lfs2 with dirs := dirnameFn (localPathOf s) :: lfs2.dirs }
              (localPathOf s) (srv.content (remotePathStr s)),
           [Event.connOpen, Event.connOpen,
            Event.queryExists (remotePathStr s), Event.connClose,
            Event.mkdirs (dirnameFn (localPathOf s)), Event.syncTimes,
            Event.transfer (remotePathStr s) (localPathOf s),
            Event.connClose]) := by
    intro lfs2
    unfold downloadOp
    rw [hm, existsOp_matched srv s g hm, hex]
    by_cases hl : localExists lfs2 (dirnameFn (localPathOf s))
    · rw [if_pos hl]
      simp only [hl, Bool.not_true, Bool.false_and, Bool.ite_eq_true_distrib]
      rfl
    · rw [if_neg hl]
      have hl2 : localExists lfs2 (dirnameFn (localPathOf s)) = false :=
        Bool.not_eq_true _ ▸ by simpa using hl
      simp only [hl2, Bool.not_false, Bool.true_and]
      unfold osMakedirs
      rw [if_neg hdn, hl2]
      rfl
  by_cases hl : localExists lfs (dirnameFn (localPathOf s))
  · have h1 := hstep lfs
    rw [if_pos hl] at h1
    have hl1 : localExists (downloadOp srv lfs s true).2.1
        (dirnameFn (localPathOf s)) = true := by
      rw [h1]
      exact localExists_writeFile_of _ _ _ _ hl
    have h2 := hstep (downloadOp srv lfs s true).2.1
    rw [if_pos hl1] at h2
    refine ⟨by rw [h1], by rw [h1]; exact writeFile_files_self _ _ _, hl1,
      by rw [h2], by rw [h2]; exact writeFile_files_self _ _ _, ?_⟩
    rw [h2]
    rw [List.count_eq_zero]
    intro hmem
    simp at hmem
  · have h1 := hstep lfs
    rw [if_neg hl] at h1
    have hl1 : localExists (downloadOp srv lfs s true).2.1
        (dirnameFn (localPathOf s)) = true := by
      rw [h1]
      apply localExists_writeFile_of
      unfold localExists
      simp [List.contains_cons]
    have h2 := hstep (downloadOp srv lfs s true).2.1
    rw [if_pos hl1] at h2
    refine ⟨by rw [h1], by rw [h1]; exact writeFile_files_self _ _ _, hl1,
      by rw [h2], by rw [h2]; exact writeFile_files_self _ _ _, ?_⟩
    rw [h2]
    rw [List.count_eq_zero]
    intro hmem
    simp at hmem
